import Mathlib

/-!
Verification of the sparse octree voxel engine (arena, chunk, index path,
dual-grid mesher) against its natural-language specification.

The Rust sources are shallowly embedded: machine integers become `Nat` with
explicit wrapping (`% 2^64`) where the source wraps, fallible operations
(assertions, slice-index panics, arena overflow) return `Option`, and the
arena slab memory is modelled as lists of blocks.  Two modelling choices for
memory contents, documented where used: freshly allocated segment memory is
modelled as zero-initialized (the repository's own unit tests sample a fresh
chunk and expect voxel 0, so they rely on zeroed fresh memory), and a freed
slot retains its previous contents until overwritten (which is what the slab
allocator in the source actually does, since freeing only flips a bitmask).
-/

namespace Elogog

/-- Voxel (src/src/octree/voxel.rs): an opaque 16-bit datum compared bitwise;
modelled by its `data : u16` payload as a `Nat`. -/
abbrev Voxel := Nat

/-- The distinguished empty voxel value `VoxelData::EMPTY = VoxelData(0)`
(src/src/octree/mod.rs). -/
def EMPTY : Voxel := 0

/-- 2^64, the u64 wrap modulus. -/
def U64 : Nat := 18446744073709551616

/-- Fuel-bounded base-2 logarithm (structural, so the kernel can evaluate
it); fuel `n` always suffices for value `n`.  `msbPos x` is the position of
the highest set bit of a nonzero `x`, the source's
`64 - leading_zeros(x) - 1`. -/
def msbPosAux : Nat → Nat → Nat
  | 0, _ => 0
  | fuel + 1, n => if n ≥ 2 then msbPosAux fuel (n / 2) + 1 else 0

def msbPos (n : Nat) : Nat := msbPosAux n n

namespace IndexPath

/-- `IndexPath::empty`: the path holding only the sentinel bit, value 1. -/
def empty : Nat := 1

/-- `IndexPath::is_empty`: the stored u64 equals 1. -/
def isEmpty (x : Nat) : Bool := x == 1

/-- `IndexPath::is_full`: bit 63 (the highest bit) is set. -/
def isFull (x : Nat) : Bool := (x >>> 63) == 1

/-- `IndexPath::peek` without its assertion: the low 3 bits
(`self.0.get() as u8 & 0b111`). -/
def peekRaw (x : Nat) : Nat := x % 8

/-- `IndexPath::pop` without its assertion: shift right by 3. -/
def popRaw (x : Nat) : Nat := x >>> 3

/-- `IndexPath::push`: `(x << 3) | octant`, guarded by `assert!(!is_full)`.
The u64 left shift discards high bits, hence the `% U64`. -/
def push (x d : Nat) : Option Nat :=
  if isFull x then none
  else some (((x <<< 3) % U64) ||| d)

/-- `IndexPath::put`: append the octant at the deep end, just below the
sentinel, guarded by `assert!(!is_full)`.  `num_bits = 64 - leading_zeros - 1`
is the bit position of the sentinel, i.e. `msbPos x` for the nonzero store. -/
def put (x d : Nat) : Option Nat :=
  if isFull x then none
  else
    let numBits := msbPos x
    let val := x &&& ((U64 - 1) ^^^ ((7 <<< numBits) % U64))
    some (val ||| (((d ||| 8) <<< numBits) % U64))

/-- `IndexPath::del`: guarded by `assert!(!is_empty)`.  The source keeps the
bits below `num_bits = 64 - leading_zeros - 1` (the sentinel position) and
then re-sets the bit at that same position. -/
def del (x : Nat) : Option Nat :=
  if isEmpty x then none
  else
    let numBits := msbPos x
    let dirBin := x &&& ((U64 - 1) ^^^ (((U64 - 1) <<< numBits) % U64))
    some (dirBin ||| ((1 <<< numBits) % U64))

/-- `IndexPath::len`: `MAX_SIZE - leading_zeros(x) / 3` where
`MAX_SIZE = 21` and `leading_zeros` counts from a 64-bit width. -/
def len (x : Nat) : Nat := 21 - (64 - (msbPos x + 1)) / 3

/-- Fuel-bounded body of the iterator drain; the fuel is structural so the
kernel can evaluate it, and `toList` supplies fuel `x`, which always
suffices because each step at least halves the value. -/
def toListAux : Nat → Nat → List Nat
  | 0, _ => []
  | fuel + 1, x => if x ≤ 1 then [] else peekRaw x :: toListAux fuel (popRaw x)

/-- `<IndexPath as Iterator>::next` drained to a list: while not empty,
emit `peek` and `pop`.  The stored value of a real path is never 0 (it is a
`NonZeroU64`); the `x = 0` case, unreachable through the API, is mapped to
the empty list. -/
def toList (x : Nat) : List Nat := toListAux x x

/-- Folding `push` over a list of octants in order (builds the path
`push d1; push d2; ...`). -/
def pushList (x : Nat) : List Nat → Option Nat
  | [] => some x
  | d :: ds => (push x d).bind (fun y => pushList y ds)

/-- Folding `put` over a list of octants in order. -/
def putList (x : Nat) : List Nat → Option Nat
  | [] => some x
  | d :: ds => (put x d).bind (fun y => putList y ds)

end IndexPath

/-- Fuel-bounded bit count; fuel `n` always suffices for value `n`. -/
def popcountAux : Nat → Nat → Nat
  | 0, _ => 0
  | fuel + 1, n => if n == 0 then 0 else n % 2 + popcountAux fuel (n / 2)

/-- Number of set bits, the model of `u8::count_ones` / `u64::count_ones`
on the nonnegative values the source applies them to. -/
def popcount (n : Nat) : Nat := popcountAux n n

/-- `u64::trailing_zeros`, fuel-bounded at the 64-bit width (returns 64 for
an all-zero word, as in Rust). -/
def trailingZerosAux : Nat → Nat → Nat
  | 0, _ => 0
  | fuel + 1, n => if n % 2 == 1 then 0 else trailingZerosAux fuel (n / 2) + 1

def trailingZeros (n : Nat) : Nat := trailingZerosAux 64 n

/-- `ArenaBlockIndice` (src/src/octree/arena.rs): locates a node block inside
the arena. -/
structure ArenaBlockIndice where
  segment : Nat
  indice : Nat
  blockSize : Nat
deriving DecidableEq, Repr

/-- `ArenaNodeIndice`: a block plus the position of one node in it. -/
structure ArenaNodeIndice where
  block : ArenaBlockIndice
  index : Nat
deriving DecidableEq, Repr

/-- `ArenaBlockIndice::child`. -/
def ArenaBlockIndice.child (b : ArenaBlockIndice) (i : Nat) : ArenaNodeIndice :=
  ⟨b, i⟩

/-- `ArenaNode`: the fixed-size octree node record.  `data` always holds the
8 sub-octant voxels (`[Voxel; 8]`). -/
structure ArenaNode where
  childrenIndexSegment : Nat
  childrenIndexIndice : Nat
  leafMask : Nat
  loadMask : Nat
  data : List Voxel
deriving DecidableEq, Repr

/-- The all-zero node, the model of freshly mapped slab memory. -/
def zeroNode : ArenaNode := ⟨0, 0, 0, 0, List.replicate 8 0⟩

namespace ArenaNode

/-- `ArenaNode::has_child_on_dir`: `(1 << dir) & leaf_mask != 0`. -/
def hasChildOnDir (n : ArenaNode) (dir : Nat) : Bool :=
  ((1 <<< dir) &&& n.leafMask) != 0

/-- `ArenaNode::num_children`: popcount of the leaf mask. -/
def numChildren (n : ArenaNode) : Nat := popcount n.leafMask

/-- `ArenaNode::children_block`. -/
def childrenBlock (n : ArenaNode) : ArenaBlockIndice :=
  ⟨n.childrenIndexSegment, n.childrenIndexIndice, n.numChildren⟩

/-- `ArenaNode::child_on_dir`: the child at block index
`popcount(mask >> (dir+1))`, special-cased to 0 at `dir = 7`. -/
def childOnDir (n : ArenaNode) (dir : Nat) : Option ArenaNodeIndice :=
  if n.hasChildOnDir dir then
    some ⟨n.childrenBlock, if dir == 7 then 0 else popcount (n.leafMask >>> (dir + 1))⟩
  else
    none

/-- `ArenaNode::set_on_dir`: write one sub-octant voxel. -/
def setOnDir (n : ArenaNode) (dir : Nat) (voxel : Voxel) : ArenaNode :=
  { n with data := n.data.set dir voxel }

/-- `ArenaNode::is_leaf_node`: mask all zero. -/
def isLeafNode (n : ArenaNode) : Bool := n.leafMask == 0

/-- `ArenaNode::is_condensable`: a leaf node all of whose 8 data entries
compare equal to `data[0]`. -/
def isCondensable (n : ArenaNode) : Bool :=
  if ¬ n.isLeafNode then false
  else n.data.all (fun x => x == n.data.getD 0 0)

end ArenaNode

/-- `ArenaSegment`: a 256-slot fixed-stride pool of blocks of `groupSize`
nodes.  `nodes` models the slab memory as 256 blocks of `groupSize` nodes
each.  Freshly mapped memory is modelled as all-zero (`ArenaSegment.new`)
and a freed slot keeps its old contents, faithful to the bitmask-only
`free` in the source.  `freemask` is four 64-bit words, bit = 1 when free. -/
structure ArenaSegment where
  nodes : List (List ArenaNode)
  freemask : List Nat
  nextAvailable : Option Nat
  groupSize : Nat
deriving DecidableEq, Repr

namespace ArenaSegment

/-- `ArenaSegment::new(group_size)`. -/
def new (groupSize : Nat) : ArenaSegment :=
  ⟨List.replicate 256 (List.replicate groupSize zeroNode),
   List.replicate 4 (U64 - 1), some 0, groupSize⟩

/-- `ArenaSegment::count_nodes`: zeros across the free mask. -/
def countNodes (s : ArenaSegment) : Nat :=
  (s.freemask.map (fun w => 64 - popcount w)).sum

/-- `ArenaSegment::is_full`. -/
def isFull (s : ArenaSegment) : Bool := s.nextAvailable.isNone

/-- `ArenaSegment::available_at`: bit `index & 0b111111` of word
`index >> 6`. -/
def availableAt (s : ArenaSegment) (index : Nat) : Bool :=
  ((s.freemask.getD (index >>> 6) 0) &&& ((1 : Nat) <<< (index &&& 63))) != 0

/-- `ArenaSegment::set_available_at`. -/
def setAvailableAt (s : ArenaSegment) (index : Nat) (available : Bool) : ArenaSegment :=
  let w := s.freemask.getD (index >>> 6) 0
  let w' := if available then w ||| ((1 : Nat) <<< (index &&& 63))
            else w &&& ((U64 - 1) ^^^ ((1 : Nat) <<< (index &&& 63)))
  { s with freemask := s.freemask.set (index >>> 6) w' }

/-- `ArenaSegment::free`: `debug_assert!(!available)` (double free) then mark
free and remember the slot in `next_available`. -/
def free (s : ArenaSegment) (index : Nat) : Option ArenaSegment :=
  if s.availableAt index then none
  else some { s.setAvailableAt index true with nextAvailable := some index }

/-- `ArenaSegment::find_next_available`: scan the four words from low to
high, return `trailing_zeros + (word_index << 6)` of the first nonzero one. -/
def findNextAvailable (s : ArenaSegment) : Option Nat :=
  go s.freemask 0
where
  go : List Nat → Nat → Option Nat
    | [], _ => none
    | w :: ws, i => if w == 0 then go ws (i + 1) else some (trailingZeros w + (i <<< 6))

/-- `ArenaSegment::alloc`: panic when full; otherwise take `next_available`,
mark it used, and advance the hint (either the next slot when it is free, or
a full scan). -/
def alloc (s : ArenaSegment) : Option (Nat × ArenaSegment) :=
  match s.nextAvailable with
  | none => none
  | some na =>
      let s := s.setAvailableAt na false
      let s :=
        if na < 255 && s.availableAt (na + 1) then
          { s with nextAvailable := some (na + 1) }
        else
          { s with nextAvailable := s.findNextAvailable }
      some (na, s)

/-- `ArenaSegment` indexing (`Index`/`IndexMut`): the `groupSize`-long run of
nodes of a used slot; panics on a free slot. -/
def getSlot (s : ArenaSegment) (index : Nat) : Option (List ArenaNode) :=
  if s.availableAt index then none
  else s.nodes.get? index

/-- Writing back the block of a used slot (the model of a
`&mut [ArenaNode]` obtained from `IndexMut`). -/
def setSlot (s : ArenaSegment) (index : Nat) (blk : List ArenaNode) : Option ArenaSegment :=
  if s.availableAt index then none
  else if index < s.nodes.length then some { s with nodes := s.nodes.set index blk }
  else none

end ArenaSegment

/-- `Arena`: eight growable vectors of segments, one per block size 1..=8. -/
structure Arena where
  segments : List (List ArenaSegment)
deriving DecidableEq, Repr

namespace Arena

/-- `Arena::new`. -/
def new : Arena := ⟨List.replicate 8 []⟩

/-- Index of the last (highest-index) non-full segment, the model of
`iter_mut().enumerate().rev().find(|s| !s.is_full())`. -/
def findRevNonFullGo (l : List ArenaSegment) : Nat → Option Nat
  | 0 => none
  | i + 1 => if (l.getD i (ArenaSegment.new 1)).isFull then Arena.findRevNonFullGo l i else some i

def findRevNonFull (l : List ArenaSegment) : Option Nat :=
  Arena.findRevNonFullGo l l.length

/-- `Arena::alloc(block_size)`: `debug_assert!(0 < bs <= 8)`; pick the last
non-full segment of that size, else push a new segment when fewer than 256
exist, else panic (arena overflow). -/
def alloc (a : Arena) (blockSize : Nat) : Option (ArenaBlockIndice × Arena) :=
  if ¬ (0 < blockSize ∧ blockSize ≤ 8) then none
  else
    match findRevNonFull (a.segments.getD (blockSize - 1) []) with
    | some i =>
        match ((a.segments.getD (blockSize - 1) []).getD i (ArenaSegment.new 1)).alloc with
        | none => none
        | some (slot, seg) =>
            some (⟨i, slot, blockSize⟩,
                  ⟨a.segments.set (blockSize - 1)
                    ((a.segments.getD (blockSize - 1) []).set i seg)⟩)
    | none =>
        if (a.segments.getD (blockSize - 1) []).length ≤ 255 then
          match (ArenaSegment.new blockSize).alloc with
          | none => none
          | some (slot, seg) =>
              some (⟨(a.segments.getD (blockSize - 1) []).length, slot, blockSize⟩,
                    ⟨a.segments.set (blockSize - 1)
                      ((a.segments.getD (blockSize - 1) []) ++ [seg])⟩)
        else none

/-- `Arena::free`: forward to the segment when `block_size > 0`; a 0-sized
block is a no-op.  Out-of-range segment indexing panics. -/
def free (a : Arena) (b : ArenaBlockIndice) : Option Arena :=
  if b.blockSize > 0 then
    match (a.segments.getD (b.blockSize - 1) []).get? b.segment with
    | none => none
    | some seg =>
        match seg.free b.indice with
        | none => none
        | some seg' =>
            some ⟨a.segments.set (b.blockSize - 1)
                    ((a.segments.getD (b.blockSize - 1) []).set b.segment seg')⟩
  else some a

/-- `Arena::get_block`: empty slice for a 0-sized block, else the segment's
slot (panicking on a free slot or out-of-range indices). -/
def getBlock (a : Arena) (b : ArenaBlockIndice) : Option (List ArenaNode) :=
  if b.blockSize == 0 then some []
  else
    match (a.segments.getD (b.blockSize - 1) []).get? b.segment with
    | none => none
    | some seg => seg.getSlot b.indice

/-- Writing back a block (model of `get_block_mut`). -/
def setBlock (a : Arena) (b : ArenaBlockIndice) (blk : List ArenaNode) : Option Arena :=
  if b.blockSize == 0 then none
  else
    match (a.segments.getD (b.blockSize - 1) []).get? b.segment with
    | none => none
    | some seg =>
        match seg.setSlot b.indice blk with
        | none => none
        | some seg' =>
            some ⟨a.segments.set (b.blockSize - 1)
                    ((a.segments.getD (b.blockSize - 1) []).set b.segment seg')⟩

/-- `Arena::get_node`: index into the block; a slice index out of range
panics. -/
def getNode (a : Arena) (n : ArenaNodeIndice) : Option ArenaNode :=
  (a.getBlock n.block).bind (fun blk => blk.get? n.index)

/-- Writing back one node (model of `get_node_mut`). -/
def setNode (a : Arena) (n : ArenaNodeIndice) (node : ArenaNode) : Option Arena :=
  (a.getBlock n.block).bind (fun blk =>
    if n.index < blk.length then a.setBlock n.block (blk.set n.index node)
    else none)

/-- One step of `realloc`'s copy loop: given the current low bits of the two
masks, copy the next surviving child from the old block to the new block
(blocks are indexed in reverse-octant order, positions `size - running_index`).
`oi`/`ni` are the running 1-based indices of the source. -/
def copyStep (a : Arena) (oldBI newBI : ArenaBlockIndice) (obs nbs : Nat)
    (oldHas newHas : Bool) (oi ni : Nat) : Option (Arena × Nat × Nat) :=
  if oldHas && newHas then
    (a.getBlock oldBI).bind (fun ob =>
      match ob.get? (obs - oi) with
      | none => none
      | some node =>
          (a.getBlock newBI).bind (fun nb =>
            if nbs - ni < nb.length then
              (a.setBlock newBI (nb.set (nbs - ni) node)).map (fun a' => (a', oi + 1, ni + 1))
            else none))
  else if oldHas then some (a, oi + 1, ni)
  else if newHas then some (a, oi, ni + 1)
  else some (a, oi, ni)

/-- `realloc`'s copy loop: up to 8 iterations over the octant bits from low
to high, with the source's early exit when either remaining mask is zero. -/
def copyLoop (a : Arena) (oldBI newBI : ArenaBlockIndice) (obs nbs : Nat) :
    Nat → Nat → Nat → Nat → Nat → Option Arena
  | 0, _, _, _, _ => some a
  | steps + 1, ofm, nfm, oi, ni =>
      let oldHas := ofm % 2 == 1
      let ofm' := ofm >>> 1
      let newHas := nfm % 2 == 1
      let nfm' := nfm >>> 1
      (copyStep a oldBI newBI obs nbs oldHas newHas oi ni).bind
        (fun r =>
          match r with
          | (a', oi', ni') =>
              if ofm' == 0 || nfm' == 0 then some a'
              else copyLoop a' oldBI newBI obs nbs steps ofm' nfm' oi' ni')

/-- `Arena::realloc(indice, freemask)`: reallocate the children block of the
node at `indice` to match the target mask.  With a zero target the old block
is freed and the node zeroed out; otherwise a fresh block is allocated,
surviving children are copied (reverse-octant order), the node is updated
and the old block freed.  The source never initializes the freshly added
child positions: they keep whatever the slab memory holds. -/
def realloc (a : Arena) (indice : ArenaNodeIndice) (freemask : Nat) : Option Arena :=
  if freemask == 0 then
    (a.getNode indice).bind (fun node =>
      (a.free node.childrenBlock).bind (fun a1 =>
        (a1.getNode indice).bind (fun node1 =>
          a1.setNode indice
            { node1 with leafMask := 0, childrenIndexIndice := 0, childrenIndexSegment := 0 })))
  else
    let newBlockSize := popcount freemask
    (a.alloc newBlockSize).bind (fun p =>
      match p with
      | (newBI, a1) =>
          (a1.getNode indice).bind (fun node =>
            let oldBI := node.childrenBlock
            (if node.leafMask != 0 then
                copyLoop a1 oldBI newBI (popcount node.leafMask) newBlockSize
                  8 node.leafMask freemask 1 1
             else some a1).bind (fun a2 =>
              (a2.getNode indice).bind (fun node2 =>
                (a2.setNode indice
                  { node2 with leafMask := freemask,
                               childrenIndexIndice := newBI.indice,
                               childrenIndexSegment := newBI.segment }).bind (fun a3 =>
                  a3.free oldBI)))))

/-- `Arena::count_nodes`. -/
def countNodes (a : Arena) : Nat :=
  (a.segments.map (fun segs => (segs.map ArenaSegment.countNodes).sum)).sum

end Arena

/-- `Chunk` (src/src/octree/chunk.rs): an arena plus the indice of the root
node (the single node of a 1-sized block). -/
structure Chunk where
  arena : Arena
  rootNode : ArenaNodeIndice
deriving DecidableEq, Repr

/-- The condensation loop at the end of `Chunk::set`, running over the
reversed descent stack (`node_index_stack.iter().rev().tuple_strip()`): as
long as the deeper node of the pair is condensable, write its representative
value `data[FrontRightBottom]` into the parent, clear the parent's mask bit
and `realloc` the parent (which frees the collapsed child's block); stop at
the first non-condensable node. -/
def condenseGo (a : Arena) (cur : ArenaNodeIndice × Nat) :
    List (ArenaNodeIndice × Nat) → Option Arena
  | [] => some a
  | (pi, pdir) :: rest =>
      (a.getNode cur.1).bind (fun cn =>
        if ¬ cn.isCondensable then some a
        else
          let v := cn.data.getD 1 0
          (a.getNode pi).bind (fun pn =>
            (a.setNode pi (pn.setOnDir pdir v)).bind (fun a1 =>
              (a1.getNode pi).bind (fun pn1 =>
                if ¬ pn1.hasChildOnDir pdir then none
                else
                  let newMask := pn1.leafMask &&& (255 ^^^ ((1 : Nat) <<< pdir))
                  (a1.realloc pi newMask).bind (fun a2 =>
                    condenseGo a2 (pi, pdir) rest)))))

def condense (a : Arena) : List (ArenaNodeIndice × Nat) → Option Arena
  | [] => some a
  | c :: rest => condenseGo a c rest

/-- The descent loop of `Chunk::set`.  `current` is the remaining index
path (peek reads the low 3 bits); the stack records `(node, direction
taken)` pairs for the condensation pass.  `peek`'s `assert!(!is_empty)`
maps to `none`; a `current` of 0 cannot arise from a real `NonZeroU64`
path and is also mapped to `none`. -/
def setGoAux (voxel : Voxel) :
    Nat → Arena → Nat → ArenaNodeIndice → List (ArenaNodeIndice × Nat) → Option Arena
  | 0, _, _, _, _ => none
  | fuel + 1, a, current, ni, stack =>
      if current ≤ 1 then none
      else
        let dir := current % 8
        let stack' := stack ++ [(ni, dir)]
        let current' := current >>> 3
        if current' == 1 then
          (a.getNode ni).bind (fun node =>
            (a.setNode ni (node.setOnDir dir voxel)).bind (fun a1 =>
              condense a1 stack'.reverse))
        else
          (a.getNode ni).bind (fun node =>
            match node.childOnDir dir with
            | some child => setGoAux voxel fuel a current' child stack'
            | none =>
                (a.realloc ni (node.leafMask ||| ((1 : Nat) <<< dir))).bind (fun a1 =>
                  (a1.getNode ni).bind (fun node1 =>
                    match node1.childOnDir dir with
                    | some child => setGoAux voxel fuel a1 current' child stack'
                    | none => none)))

/-- Entry point of the descent with fuel `current`, which always suffices:
each iteration shifts the remaining path right by 3 bits, so the iteration
count is bounded by the value itself and the fuel branch is never hit. -/
def setGo (a : Arena) (current : Nat) (ni : ArenaNodeIndice)
    (stack : List (ArenaNodeIndice × Nat)) (voxel : Voxel) : Option Arena :=
  setGoAux voxel current a current ni stack

/-- The descent loop of `Chunk::sample`: follow existing children; when the
path ends, or exits into a leaf octant, return that octant's `data[dir]`. -/
def sampleGoAux : Nat → Arena → Nat → ArenaNodeIndice → Option Voxel
  | 0, _, _, _ => none
  | fuel + 1, a, current, ni =>
      if current ≤ 1 then none
      else
        let dir := current % 8
        let current' := current >>> 3
        (a.getNode ni).bind (fun node =>
          if current' == 1 then node.data.get? dir
          else
            match node.childOnDir dir with
            | some child => sampleGoAux fuel a current' child
            | none => node.data.get? dir)

/-- Entry point of the sampling descent; fuel `current` always suffices
(see `setGo`). -/
def sampleGo (a : Arena) (current : Nat) (ni : ArenaNodeIndice) : Option Voxel :=
  sampleGoAux current a current ni

namespace Chunk

/-- `Chunk::new`: a fresh arena whose first 1-sized block holds the root
node. -/
def new : Option Chunk :=
  (Arena.new.alloc 1).map (fun p => ⟨p.2, p.1.child 0⟩)

/-- `Chunk::set(path, voxel)`. -/
def set (c : Chunk) (path : Nat) (voxel : Voxel) : Option Chunk :=
  (setGo c.arena path c.rootNode [] voxel).map (fun a => ⟨a, c.rootNode⟩)

/-- `Chunk::sample(path)`. -/
def sample (c : Chunk) (path : Nat) : Option Voxel :=
  sampleGo c.arena path c.rootNode

end Chunk

/-- The 256-entry `EDGE_TABLE` of the DMC mesher (src/src/octree/mesh.rs):
each row lists up to 5 triangles as packed triples of 4-bit edge ids, with
0xffff terminating the row. -/
def EDGE_TABLE : List (List Nat) := [
  [0xffff, 0xffff, 0xffff, 0xffff, 0xffff],
  [0x02b3, 0xffff, 0xffff, 0xffff, 0xffff],
  [0x0a21, 0xffff, 0xffff, 0xffff, 0xffff],
  [0x01a3, 0x03ab, 0xffff, 0xffff, 0xffff],
  [0x0380, 0xffff, 0xffff, 0xffff, 0xffff],
  [0x02b0, 0x00b8, 0xffff, 0xffff, 0xffff],
  [0x0380, 0x0a21, 0xffff, 0xffff, 0xffff],
  [0x01a0, 0x0a80, 0x0ab8, 0xffff, 0xffff],
  [0x0910, 0xffff, 0xffff, 0xffff, 0xffff],
  [0x0091, 0x0b32, 0xffff, 0xffff, 0xffff],
  [0x0a29, 0x0920, 0xffff, 0xffff, 0xffff],
  [0x0093, 0x09b3, 0x09ab, 0xffff, 0xffff],
  [0x0381, 0x0189, 0xffff, 0xffff, 0xffff],
  [0x02b1, 0x0b91, 0x0b89, 0xffff, 0xffff],
  [0x0382, 0x08a2, 0x089a, 0xffff, 0xffff],
  [0x0a89, 0x0b8a, 0xffff, 0xffff, 0xffff],
  [0x0b67, 0xffff, 0xffff, 0xffff, 0xffff],
  [0x0327, 0x0726, 0xffff, 0xffff, 0xffff],
  [0x021a, 0x07b6, 0xffff, 0xffff, 0xffff],
  [0x067a, 0x071a, 0x0731, 0xffff, 0xffff],
  [0x0803, 0x067b, 0xffff, 0xffff, 0xffff],
  [0x0807, 0x0067, 0x0026, 0xffff, 0xffff],
  [0x0a21, 0x0803, 0x07b6, 0xffff, 0xffff],
  [0x067a, 0x0a71, 0x0781, 0x0801, 0xffff],
  [0x0910, 0x067b, 0xffff, 0xffff, 0xffff],
  [0x0672, 0x0732, 0x0910, 0xffff, 0xffff],
  [0x0092, 0x09a2, 0x07b6, 0xffff, 0xffff],
  [0x0730, 0x0a70, 0x09a0, 0x07a6, 0xffff],
  [0x0918, 0x0138, 0x067b, 0xffff, 0xffff],
  [0x0261, 0x0681, 0x0891, 0x0678, 0xffff],
  [0x07b6, 0x03a2, 0x038a, 0x089a, 0xffff],
  [0x0a67, 0x08a7, 0x09a8, 0xffff, 0xffff],
  [0x056a, 0xffff, 0xffff, 0xffff, 0xffff],
  [0x0b32, 0x056a, 0xffff, 0xffff, 0xffff],
  [0x0561, 0x0162, 0xffff, 0xffff, 0xffff],
  [0x0b36, 0x0356, 0x0315, 0xffff, 0xffff],
  [0x0380, 0x06a5, 0xffff, 0xffff, 0xffff],
  [0x080b, 0x002b, 0x056a, 0xffff, 0xffff],
  [0x0561, 0x0621, 0x0803, 0xffff, 0xffff],
  [0x0b80, 0x05b0, 0x0150, 0x06b5, 0xffff],
  [0x0109, 0x06a5, 0xffff, 0xffff, 0xffff],
  [0x0910, 0x0b32, 0x06a5, 0xffff, 0xffff],
  [0x0569, 0x0609, 0x0620, 0xffff, 0xffff],
  [0x06b3, 0x0630, 0x0560, 0x0950, 0xffff],
  [0x0381, 0x0891, 0x06a5, 0xffff, 0xffff],
  [0x06a5, 0x0291, 0x02b9, 0x0b89, 0xffff],
  [0x0895, 0x0285, 0x0625, 0x0823, 0xffff],
  [0x0956, 0x0b96, 0x089b, 0xffff, 0xffff],
  [0x0a5b, 0x0b57, 0xffff, 0xffff, 0xffff],
  [0x0a52, 0x0532, 0x0573, 0xffff, 0xffff],
  [0x021b, 0x017b, 0x0157, 0xffff, 0xffff],
  [0x0531, 0x0573, 0xffff, 0xffff, 0xffff],
  [0x0a5b, 0x057b, 0x0038, 0xffff, 0xffff],
  [0x0028, 0x0258, 0x0578, 0x052a, 0xffff],
  [0x0380, 0x0721, 0x0571, 0x0b27, 0xffff],
  [0x0780, 0x0170, 0x0571, 0xffff, 0xffff],
  [0x07b5, 0x0ba5, 0x0091, 0xffff, 0xffff],
  [0x0109, 0x03a5, 0x0735, 0x02a3, 0xffff],
  [0x0579, 0x0729, 0x0209, 0x07b2, 0xffff],
  [0x0309, 0x0539, 0x0735, 0xffff, 0xffff],
  [0x057a, 0x07ba, 0x0189, 0x0138, 0xffff],
  [0x0289, 0x0129, 0x0278, 0x052a, 0x0257],
  [0x0257, 0x0b27, 0x0295, 0x0823, 0x0289],
  [0x0789, 0x0795, 0xffff, 0xffff, 0xffff],
  [0x0874, 0xffff, 0xffff, 0xffff, 0xffff],
  [0x0748, 0x02b3, 0xffff, 0xffff, 0xffff],
  [0x0a21, 0x0748, 0xffff, 0xffff, 0xffff],
  [0x01a3, 0x0ab3, 0x0487, 0xffff, 0xffff],
  [0x0034, 0x0437, 0xffff, 0xffff, 0xffff],
  [0x074b, 0x042b, 0x0402, 0xffff, 0xffff],
  [0x0743, 0x0403, 0x0a21, 0xffff, 0xffff],
  [0x0ab1, 0x0b41, 0x0401, 0x04b7, 0xffff],
  [0x0910, 0x0748, 0xffff, 0xffff, 0xffff],
  [0x0109, 0x0748, 0x0b32, 0xffff, 0xffff],
  [0x0a29, 0x0209, 0x0748, 0xffff, 0xffff],
  [0x0874, 0x0b09, 0x0ab9, 0x030b, 0xffff],
  [0x0914, 0x0174, 0x0137, 0xffff, 0xffff],
  [0x0b74, 0x0b49, 0x02b9, 0x0129, 0xffff],
  [0x09a2, 0x0792, 0x0372, 0x0497, 0xffff],
  [0x0b74, 0x09b4, 0x0ab9, 0xffff, 0xffff],
  [0x0486, 0x068b, 0xffff, 0xffff, 0xffff],
  [0x0328, 0x0248, 0x0264, 0xffff, 0xffff],
  [0x0486, 0x08b6, 0x01a2, 0xffff, 0xffff],
  [0x0318, 0x0168, 0x0648, 0x01a6, 0xffff],
  [0x0b63, 0x0603, 0x0640, 0xffff, 0xffff],
  [0x0240, 0x0264, 0xffff, 0xffff, 0xffff],
  [0x0a21, 0x0b03, 0x0b60, 0x0640, 0xffff],
  [0x001a, 0x060a, 0x0406, 0xffff, 0xffff],
  [0x0b68, 0x0648, 0x0109, 0xffff, 0xffff],
  [0x0091, 0x0432, 0x0642, 0x0834, 0xffff],
  [0x08b4, 0x0b64, 0x0920, 0x09a2, 0xffff],
  [0x0364, 0x0834, 0x03a6, 0x0930, 0x039a],
  [0x0649, 0x0369, 0x0139, 0x063b, 0xffff],
  [0x0491, 0x0241, 0x0642, 0xffff, 0xffff],
  [0x039a, 0x023a, 0x0349, 0x063b, 0x0364],
  [0x049a, 0x04a6, 0xffff, 0xffff, 0xffff],
  [0x06a5, 0x0874, 0xffff, 0xffff, 0xffff],
  [0x02b3, 0x0487, 0x056a, 0xffff, 0xffff],
  [0x0216, 0x0156, 0x0874, 0xffff, 0xffff],
  [0x0748, 0x05b3, 0x0153, 0x06b5, 0xffff],
  [0x0034, 0x0374, 0x0a56, 0xffff, 0xffff],
  [0x06a5, 0x0274, 0x0024, 0x0b72, 0xffff],
  [0x0521, 0x0625, 0x0403, 0x0743, 0xffff],
  [0x0b15, 0x06b5, 0x0b01, 0x04b7, 0x0b40],
  [0x0091, 0x06a5, 0x0748, 0xffff, 0xffff],
  [0x0910, 0x0874, 0x0b32, 0x06a5, 0xffff],
  [0x0748, 0x0509, 0x0560, 0x0620, 0xffff],
  [0x0950, 0x0560, 0x0630, 0x036b, 0x0748],
  [0x056a, 0x0791, 0x0371, 0x0497, 0xffff],
  [0x0129, 0x02b9, 0x0b49, 0x04b7, 0x06a5],
  [0x0937, 0x0497, 0x0923, 0x0695, 0x0962],
  [0x0956, 0x0b96, 0x0974, 0x09b7, 0xffff],
  [0x0485, 0x08a5, 0x08ba, 0xffff, 0xffff],
  [0x0a52, 0x0253, 0x0543, 0x0483, 0xffff],
  [0x0152, 0x0582, 0x08b2, 0x0854, 0xffff],
  [0x0548, 0x0358, 0x0153, 0xffff, 0xffff],
  [0x0405, 0x00b5, 0x0ba5, 0x003b, 0xffff],
  [0x02a5, 0x0425, 0x0024, 0xffff, 0xffff],
  [0x0b40, 0x03b0, 0x0b54, 0x01b2, 0x0b15],
  [0x0540, 0x0501, 0xffff, 0xffff, 0xffff],
  [0x0910, 0x0a48, 0x0ba8, 0x054a, 0xffff],
  [0x02a3, 0x0a53, 0x0583, 0x0854, 0x0910],
  [0x0520, 0x0950, 0x05b2, 0x0854, 0x058b],
  [0x0548, 0x0358, 0x0509, 0x0530, 0xffff],
  [0x04ba, 0x054a, 0x043b, 0x0149, 0x0413],
  [0x02a5, 0x0425, 0x0291, 0x0249, 0xffff],
  [0x0549, 0x03b2, 0xffff, 0xffff, 0xffff],
  [0x0549, 0xffff, 0xffff, 0xffff, 0xffff],
  [0x0459, 0xffff, 0xffff, 0xffff, 0xffff],
  [0x0459, 0x0b32, 0xffff, 0xffff, 0xffff],
  [0x0a21, 0x0459, 0xffff, 0xffff, 0xffff],
  [0x0b3a, 0x031a, 0x0459, 0xffff, 0xffff],
  [0x0459, 0x0380, 0xffff, 0xffff, 0xffff],
  [0x02b0, 0x0b80, 0x0594, 0xffff, 0xffff],
  [0x0803, 0x0a21, 0x0594, 0xffff, 0xffff],
  [0x0594, 0x0180, 0x01a8, 0x0ab8, 0xffff],
  [0x0450, 0x0051, 0xffff, 0xffff, 0xffff],
  [0x0450, 0x0510, 0x0b32, 0xffff, 0xffff],
  [0x0a25, 0x0245, 0x0204, 0xffff, 0xffff],
  [0x0045, 0x0b05, 0x0ab5, 0x030b, 0xffff],
  [0x0458, 0x0538, 0x0513, 0xffff, 0xffff],
  [0x0512, 0x0852, 0x0b82, 0x0584, 0xffff],
  [0x05a2, 0x0523, 0x0453, 0x0843, 0xffff],
  [0x0845, 0x0a85, 0x0b8a, 0xffff, 0xffff],
  [0x0594, 0x0b67, 0xffff, 0xffff, 0xffff],
  [0x0327, 0x0267, 0x0945, 0xffff, 0xffff],
  [0x0459, 0x021a, 0x0b67, 0xffff, 0xffff],
  [0x0459, 0x061a, 0x0671, 0x0731, 0xffff],
  [0x0380, 0x0594, 0x067b, 0xffff, 0xffff],
  [0x0459, 0x0680, 0x0260, 0x0786, 0xffff],
  [0x07b6, 0x0a21, 0x0380, 0x0594, 0xffff],
  [0x0a61, 0x0671, 0x0701, 0x0078, 0x0459],
  [0x0105, 0x0045, 0x0b67, 0xffff, 0xffff],
  [0x0263, 0x0673, 0x0051, 0x0045, 0xffff],
  [0x0b67, 0x0a45, 0x0a24, 0x0204, 0xffff],
  [0x0a04, 0x05a4, 0x0a30, 0x07a6, 0x0a73],
  [0x067b, 0x0438, 0x0453, 0x0513, 0xffff],
  [0x0826, 0x0786, 0x0812, 0x0584, 0x0851],
  [0x0843, 0x0453, 0x0523, 0x025a, 0x067b],
  [0x0a67, 0x08a7, 0x0a45, 0x0a84, 0xffff],
  [0x094a, 0x0a46, 0xffff, 0xffff, 0xffff],
  [0x094a, 0x046a, 0x032b, 0xffff, 0xffff],
  [0x0941, 0x0421, 0x0462, 0xffff, 0xffff],
  [0x0469, 0x0639, 0x0319, 0x036b, 0xffff],
  [0x06a4, 0x0a94, 0x0380, 0xffff, 0xffff],
  [0x0280, 0x0b82, 0x0a94, 0x06a4, 0xffff],
  [0x0803, 0x0921, 0x0942, 0x0462, 0xffff],
  [0x01b8, 0x0018, 0x016b, 0x0419, 0x0146],
  [0x010a, 0x006a, 0x0046, 0xffff, 0xffff],
  [0x02b3, 0x0610, 0x0460, 0x0a16, 0xffff],
  [0x0420, 0x0624, 0xffff, 0xffff, 0xffff],
  [0x06b3, 0x0063, 0x0460, 0xffff, 0xffff],
  [0x0138, 0x0618, 0x0468, 0x0a16, 0xffff],
  [0x0146, 0x0a16, 0x0184, 0x0b12, 0x01b8],
  [0x0238, 0x0428, 0x0624, 0xffff, 0xffff],
  [0x0846, 0x086b, 0xffff, 0xffff, 0xffff],
  [0x07b4, 0x0b94, 0x0ba9, 0xffff, 0xffff],
  [0x0a92, 0x0972, 0x0732, 0x0947, 0xffff],
  [0x07b4, 0x04b9, 0x0b29, 0x0219, 0xffff],
  [0x0194, 0x0714, 0x0317, 0xffff, 0xffff],
  [0x0380, 0x0794, 0x07b9, 0x0ba9, 0xffff],
  [0x07a9, 0x0479, 0x072a, 0x0078, 0x0702],
  [0x0479, 0x07b9, 0x0b19, 0x01b2, 0x0380],
  [0x0194, 0x0714, 0x0180, 0x0178, 0xffff],
  [0x0ba1, 0x04b1, 0x0041, 0x0b47, 0xffff],
  [0x0a73, 0x02a3, 0x0a47, 0x00a1, 0x0a04],
  [0x047b, 0x024b, 0x0042, 0xffff, 0xffff],
  [0x0304, 0x0347, 0xffff, 0xffff, 0xffff],
  [0x0413, 0x0843, 0x04a1, 0x0b47, 0x04ba],
  [0x02a1, 0x0478, 0xffff, 0xffff, 0xffff],
  [0x047b, 0x024b, 0x0438, 0x0423, 0xffff],
  [0x0784, 0xffff, 0xffff, 0xffff, 0xffff],
  [0x0879, 0x0975, 0xffff, 0xffff, 0xffff],
  [0x0597, 0x0987, 0x02b3, 0xffff, 0xffff],
  [0x0879, 0x0759, 0x021a, 0xffff, 0xffff],
  [0x0859, 0x0758, 0x031a, 0x0b3a, 0xffff],
  [0x0039, 0x0359, 0x0375, 0xffff, 0xffff],
  [0x0759, 0x0279, 0x0029, 0x0b72, 0xffff],
  [0x021a, 0x0059, 0x0035, 0x0375, 0xffff],
  [0x0075, 0x0905, 0x00b7, 0x0a01, 0x00ab],
  [0x0870, 0x0710, 0x0751, 0xffff, 0xffff],
  [0x0b32, 0x0810, 0x0871, 0x0751, 0xffff],
  [0x0208, 0x0528, 0x0758, 0x025a, 0xffff],
  [0x00ab, 0x030b, 0x005a, 0x0708, 0x0075],
  [0x0351, 0x0753, 0xffff, 0xffff, 0xffff],
  [0x012b, 0x071b, 0x0517, 0xffff, 0xffff],
  [0x05a2, 0x0352, 0x0753, 0xffff, 0xffff],
  [0x05ab, 0x05b7, 0xffff, 0xffff, 0xffff],
  [0x0596, 0x09b6, 0x098b, 0xffff, 0xffff],
  [0x0985, 0x0825, 0x0265, 0x0283, 0xffff],
  [0x0a21, 0x0b59, 0x08b9, 0x065b, 0xffff],
  [0x0631, 0x0a61, 0x0683, 0x0965, 0x0698],
  [0x0b63, 0x0360, 0x0650, 0x0590, 0xffff],
  [0x0659, 0x0069, 0x0260, 0xffff, 0xffff],
  [0x03b0, 0x0b60, 0x0690, 0x0965, 0x0a21],
  [0x001a, 0x060a, 0x0059, 0x0065, 0xffff],
  [0x08b0, 0x0b50, 0x0510, 0x0b65, 0xffff],
  [0x0851, 0x0081, 0x0865, 0x0283, 0x0826],
  [0x058b, 0x065b, 0x0508, 0x025a, 0x0520],
  [0x0830, 0x0a65, 0xffff, 0xffff, 0xffff],
  [0x03b6, 0x0536, 0x0135, 0xffff, 0xffff],
  [0x0651, 0x0612, 0xffff, 0xffff, 0xffff],
  [0x03b6, 0x0536, 0x03a2, 0x035a, 0xffff],
  [0x065a, 0xffff, 0xffff, 0xffff, 0xffff],
  [0x06a7, 0x0a87, 0x0a98, 0xffff, 0xffff],
  [0x0b32, 0x086a, 0x098a, 0x0768, 0xffff],
  [0x0621, 0x0861, 0x0981, 0x0768, 0xffff],
  [0x0698, 0x0768, 0x0619, 0x036b, 0x0631],
  [0x0370, 0x07a0, 0x0a90, 0x0a76, 0xffff],
  [0x0702, 0x0b72, 0x0790, 0x0a76, 0x07a9],
  [0x0962, 0x0192, 0x0976, 0x0390, 0x0937],
  [0x0190, 0x076b, 0xffff, 0xffff, 0xffff],
  [0x076a, 0x07a1, 0x0871, 0x0081, 0xffff],
  [0x0081, 0x0871, 0x07a1, 0x0a76, 0x0b32],
  [0x0087, 0x0607, 0x0206, 0xffff, 0xffff],
  [0x0087, 0x0607, 0x00b3, 0x006b, 0xffff],
  [0x076a, 0x017a, 0x0371, 0xffff, 0xffff],
  [0x012b, 0x071b, 0x016a, 0x0176, 0xffff],
  [0x0237, 0x0276, 0xffff, 0xffff, 0xffff],
  [0x06b7, 0xffff, 0xffff, 0xffff, 0xffff],
  [0x08a9, 0x08ba, 0xffff, 0xffff, 0xffff],
  [0x0832, 0x0a82, 0x098a, 0xffff, 0xffff],
  [0x0b21, 0x09b1, 0x08b9, 0xffff, 0xffff],
  [0x0831, 0x0819, 0xffff, 0xffff, 0xffff],
  [0x0903, 0x0b93, 0x0a9b, 0xffff, 0xffff],
  [0x02a9, 0x0290, 0xffff, 0xffff, 0xffff],
  [0x0903, 0x0b93, 0x0921, 0x09b2, 0xffff],
  [0x0190, 0xffff, 0xffff, 0xffff, 0xffff],
  [0x0a10, 0x08a0, 0x0ba8, 0xffff, 0xffff],
  [0x0832, 0x0a82, 0x0810, 0x08a1, 0xffff],
  [0x0b20, 0x0b08, 0xffff, 0xffff, 0xffff],
  [0x0830, 0xffff, 0xffff, 0xffff, 0xffff],
  [0x0a13, 0x0a3b, 0xffff, 0xffff, 0xffff],
  [0x02a1, 0xffff, 0xffff, 0xffff, 0xffff],
  [0x0b23, 0xffff, 0xffff, 0xffff, 0xffff],
  [0xffff, 0xffff, 0xffff, 0xffff, 0xffff]]

/-- The cube-index computation of `MeshGenerator::add_dualcell`: iterate the
8 node values in reverse octant order; shift the u8 accumulator left and set
its low bit when the value equals `EMPTY`. -/
def cubeIndex (vals : Fin 8 → Voxel) : Nat :=
  ([7, 6, 5, 4, 3, 2, 1, 0] : List (Fin 8)).foldl
    (fun acc i => (acc <<< 1) ||| (if vals i == EMPTY then 1 else 0)) 0

/-- Number of triangles `add_dualcell` emits from one edge-table row: one
per entry before the first `0xffff` terminator. -/
def countTris : List Nat → Nat
  | [] => 0
  | e :: rest => if e == 0xffff then 0 else countTris rest + 1

/-- Modelled from the spec: the `Voxel` cursor type of the external `octree`
crate that `mesh.rs` consumes (`octree::voxel::Voxel<VoxelData>`, re-exported
through src/src/octree/mod.rs but not part of src/).  Following section 4.5 of
the specification, a cursor is either a leaf holding one value or a
subdivided node with 8 children, `is_leaf`/`is_subdivided` discriminate, and
`get_child(d)` returns the child along octant `d` for a subdivided cursor
and the cursor itself for a leaf (leaves are uniform). -/
inductive VoxelCursor where
  | leaf (value : Voxel)
  | node (c0 c1 c2 c3 c4 c5 c6 c7 : VoxelCursor)
deriving DecidableEq

namespace VoxelCursor

/-- Spec section 4.5: `is_leaf`. -/
def isLeaf : VoxelCursor → Bool
  | leaf _ => true
  | _ => false

/-- Spec section 4.5: `is_subdivided`, the negation of `is_leaf`. -/
def isSubdivided (v : VoxelCursor) : Bool := ¬ v.isLeaf

/-- Spec section 4.5: `get_child(d)`; on a leaf the cursor itself. -/
def getChild : VoxelCursor → Nat → VoxelCursor
  | leaf v, _ => leaf v
  | node c0 c1 c2 c3 c4 c5 c6 c7, d =>
      if d = 0 then c0 else if d = 1 then c1 else if d = 2 then c2
      else if d = 3 then c3 else if d = 4 then c4 else if d = 5 then c5
      else if d = 6 then c6 else c7

/-- Tree depth of a cursor (0 for a leaf); the octree bounds it by the
21-level index-path capacity. -/
def depth : VoxelCursor → Nat
  | leaf _ => 0
  | node c0 c1 c2 c3 c4 c5 c6 c7 =>
      ((((((c0.depth.max c1.depth).max c2.depth).max c3.depth).max
         c4.depth).max c5.depth).max c6.depth).max c7.depth + 1

end VoxelCursor

/-- `Direction::opposite`: `7 - d`. -/
def oppositeDir (d : Nat) : Nat := 7 - d

/-- One sweep of `MeshGenerator::vert_proc`'s canonicalization loop: every
subdivided cursor at position `i` is replaced by its child along the
opposite octant `7 - i`; leaves stay. -/
def vertStep (ns : Fin 8 → VoxelCursor) : Fin 8 → VoxelCursor :=
  fun i => if (ns i).isSubdivided then (ns i).getChild (oppositeDir i.val) else ns i

/-- The loop guard of `vert_proc`: some cursor is still subdivided. -/
def hasSubdivided (ns : Fin 8 → VoxelCursor) : Bool :=
  (List.finRange 8).any (fun i => (ns i).isSubdivided)

/-- `MeshGenerator::vert_proc`'s canonicalization loop, fuel-bounded:
sweep while some cursor is subdivided; `none` models exceeding the fuel. -/
def vertLoop : Nat → (Fin 8 → VoxelCursor) → Option (Fin 8 → VoxelCursor)
  | 0, ns => if hasSubdivided ns then none else some ns
  | fuel + 1, ns => if hasSubdivided ns then vertLoop fuel (vertStep ns) else some ns

/-- The three-set run refuting claim C1 (paths written in peek order):
`set [3,0,0] 2; set [1,3] 1; set [3,0,0,3,1] 1`.  All three sets succeed. -/
def chunkAfterC1 : Option Chunk :=
  ((Chunk.new.bind (fun c => c.set 515 2)).bind (fun c => c.set 89 1)).bind
    (fun c => c.set 38403 1)

/-- The chunk for claim C2 after `set [0] 5` (path value 8). -/
def chunkC2a : Option Chunk := Chunk.new.bind (fun c => c.set 8 5)

/-- The chunk for claim C2 after additionally `set [0,1] 7` (path value
72), subdividing octant 0. -/
def chunkC2b : Option Chunk := chunkC2a.bind (fun c => c.set 72 7)

/-- The abstract packed value of an index path whose peek-order octant list
is `ds`: the sentinel 1 followed by the 3-bit groups, shallowest in the low
bits.  `encode [] = 1` and `encode (d :: t) = encode t * 8 + d`. -/
def encode (ds : List Nat) : Nat := ds.foldr (fun d acc => acc * 8 + d) 1

/-!  Theorems.  -/

set_option maxRecDepth 1000000 in
/-- Claim C1 (code-bug evidence).  From a fresh chunk, the three sets
`set [3,0,0] 2; set [1,3] 1; set [3,0,0,3,1] 1` (paths in peek order, packed
values 515, 89 and 38403) all succeed, yet sampling the very path the last
set just wrote panics (`none`: access to a freed arena slot) instead of
returning voxel 1.  The third set descends into octant 0 of the node at
`[3,0]`, and `Arena::realloc` hands it the stale slot freed when `[1]` was
subdivided; that stale node's mask points back into the block that the same
set then frees, leaving a dangling child pointer on the sampled path. -/
theorem C1_sample_after_set_panics :
    chunkAfterC1.isSome = true ∧
    (chunkAfterC1.bind (fun c => c.sample 38403)) = none := by
  constructor
  · decide
  · decide

set_option maxRecDepth 1000000 in
/-- Claim C2 (code-bug evidence).  After `set [0] 5` the whole octant 0
samples as 5; the refining `set [0,1] 7` allocates a fresh child for octant
0, but neither `Arena::realloc` nor `Chunk::set` initializes it from
`parent.data[0]` (the slab memory is simply left as-is, all zero on a fresh
segment), so `sample [0,0]` afterwards yields 0, not the 5 required for the
semantic field to be unchanged by adding detail. -/
theorem C2_fresh_child_not_initialized :
    (chunkC2a.bind (fun c => c.sample 64)) = some 5 ∧
    (chunkC2b.bind (fun c => c.sample 64)) = some 0 ∧
    (chunkC2b.bind (fun c => c.sample 72)) = some 7 := by
  refine ⟨?_, ?_, ?_⟩
  · decide
  · decide
  · decide

/-- Claim C6 (code-bug evidence).  `IndexPath::del` computes
`num_bits = 64 - leading_zeros - 1`, which is the sentinel position, so it
clears the bits from the sentinel up and then re-sets the sentinel: the
result is the input itself.  At the failing input `put(empty, 3) = 11`
(binary 1011), `del` returns 11 unchanged with length still 1, instead of
removing the deep-end element to give the empty path 1. -/
theorem C6_del_is_identity_at_failing_input :
    IndexPath.put IndexPath.empty 3 = some 11 ∧
    IndexPath.del 11 = some 11 ∧
    IndexPath.len 11 = 1 ∧
    IndexPath.empty = 1 := by
  refine ⟨?_, ?_, ?_, rfl⟩
  · decide
  · decide
  · decide

/-- Claim C10.  `Chunk::set` and `Chunk::sample` on the empty index path
both begin by calling `IndexPath::peek`, whose `assert!(!is_empty)` fires
(`none` in the model) on the very first loop iteration, before any arena
read or write, so a panicking call leaves the chunk unchanged. -/
theorem C10_empty_path_panics (c : Chunk) (v : Voxel) :
    c.set IndexPath.empty v = none ∧ c.sample IndexPath.empty = none := by
  exact ⟨rfl, rfl⟩

set_option maxRecDepth 1000000 in
/-- The mask-level behaviour of `child_on_dir`, checked over all 8-bit masks
and all octants: the guard agrees with `testBit`, and for `d = 7` the
popcount of `mask >> 8` is 0 (so the source's special case agrees with the
general formula). -/
theorem childOnDir_mask_spec : ∀ (m : Fin 256) (d : Fin 8),
    ((((1 : Nat) <<< d.val) &&& m.val != 0) = m.val.testBit d.val) ∧
    (d.val = 7 → popcount (m.val >>> (d.val + 1)) = 0) := by decide

/-- Claim C4.  For every node with an 8-bit mask and every octant `d`,
`child_on_dir(d)` is `None` iff mask bit `d` is clear; otherwise it returns
the child of the node's children block at block index
`popcount(mask >> (d+1))`, and for `d = 7` that index is 0. -/
theorem C4_child_on_dir (n : ArenaNode) (hm : n.leafMask < 256) (d : Nat) (hd : d < 8) :
    (n.childOnDir d = none ↔ n.leafMask.testBit d = false) ∧
    (n.leafMask.testBit d = true →
        n.childOnDir d = some ⟨n.childrenBlock, popcount (n.leafMask >>> (d + 1))⟩) ∧
    (d = 7 → popcount (n.leafMask >>> (d + 1)) = 0) := by
  obtain ⟨h1, h2⟩ := childOnDir_mask_spec ⟨n.leafMask, hm⟩ ⟨d, hd⟩
  refine ⟨?_, ?_, h2⟩
  · unfold ArenaNode.childOnDir ArenaNode.hasChildOnDir
    rw [h1]
    cases htb : n.leafMask.testBit d <;> simp [htb]
  · intro htb
    unfold ArenaNode.childOnDir ArenaNode.hasChildOnDir
    rw [h1, htb]
    simp only [if_true]
    by_cases h7 : d = 7
    · subst h7
      simp [h2 rfl]
    · simp [h7]

/-- Witness for C4 at the mask of the repository's own `test_child_on_dir`
(mask `0b00101101`, octant 0, block index 3). -/
theorem C4_witness :
    ((45 : Nat) < 256 ∧ (0 : Nat) < 8 ∧ (45 : Nat).testBit 0 = true) ∧
    ArenaNode.childOnDir ⟨0, 0, 45, 0, List.replicate 8 0⟩ 0 =
      some ⟨⟨0, 0, popcount 45⟩, 3⟩ := by
  refine ⟨⟨by decide, by decide, by decide⟩, ?_⟩
  have h := (C4_child_on_dir ⟨0, 0, 45, 0, List.replicate 8 0⟩ (by decide) 0
    (by decide)).2.1 (by decide)
  rw [h]
  decide

set_option maxRecDepth 1000000 in
/-- The 8-step cube-index fold writes bit `i` from position `i`, checked
over all assignments of the 8 booleans. -/
theorem cubeIndex_bits : ∀ (b : Fin 8 → Bool) (i : Fin 8),
    (([7, 6, 5, 4, 3, 2, 1, 0] : List (Fin 8)).foldl
      (fun acc j => (acc <<< 1) ||| (if b j then 1 else 0)) 0).testBit i.val = b i := by
  decide

/-- Claim C9.  The mesher's 8-bit cube index has bit `i` set iff the voxel
at octant `i` equals `EMPTY`, and the edge-table rows for cube indices 0 and
0xFF consist only of the `0xffff` terminator, so those dual cells emit zero
triangles. -/
theorem C9_cube_index_and_table (vals : Fin 8 → Voxel) :
    (∀ i : Fin 8, (cubeIndex vals).testBit i.val = (vals i == EMPTY)) ∧
    EDGE_TABLE.getD 0 [] = [0xffff, 0xffff, 0xffff, 0xffff, 0xffff] ∧
    EDGE_TABLE.getD 255 [] = [0xffff, 0xffff, 0xffff, 0xffff, 0xffff] ∧
    countTris (EDGE_TABLE.getD 0 []) = 0 ∧
    countTris (EDGE_TABLE.getD 255 []) = 0 := by
  refine ⟨fun i => cubeIndex_bits (fun j => vals j == EMPTY) i, ?_, ?_, ?_, ?_⟩
  · rfl
  · rfl
  · rfl
  · rfl

/-- A subdivided cursor's child along any octant is strictly shallower. -/
theorem getChild_depth_lt (c : VoxelCursor) (hc : c.isSubdivided = true) (d : Nat) :
    (c.getChild d).depth < c.depth := by
  cases c with
  | leaf v => simp [VoxelCursor.isSubdivided, VoxelCursor.isLeaf] at hc
  | node c0 c1 c2 c3 c4 c5 c6 c7 =>
      simp only [VoxelCursor.getChild, VoxelCursor.depth]
      split_ifs <;> refine Nat.lt_succ_of_le ?_
      · exact le_max_of_le_left (le_max_of_le_left (le_max_of_le_left
          (le_max_of_le_left (le_max_of_le_left (le_max_of_le_left
            (Nat.le_max_left _ _))))))
      · exact le_max_of_le_left (le_max_of_le_left (le_max_of_le_left
          (le_max_of_le_left (le_max_of_le_left (le_max_of_le_left
            (Nat.le_max_right _ _))))))
      · exact le_max_of_le_left (le_max_of_le_left (le_max_of_le_left
          (le_max_of_le_left (le_max_of_le_left (Nat.le_max_right _ _)))))
      · exact le_max_of_le_left (le_max_of_le_left (le_max_of_le_left
          (le_max_of_le_left (Nat.le_max_right _ _))))
      · exact le_max_of_le_left (le_max_of_le_left (le_max_of_le_left
          (Nat.le_max_right _ _)))
      · exact le_max_of_le_left (le_max_of_le_left (Nat.le_max_right _ _))
      · exact le_max_of_le_left (Nat.le_max_right _ _)
      · exact Nat.le_max_right _ _

/-- A cursor that is not subdivided is a leaf of depth 0. -/
theorem depth_eq_zero_of_not_subdivided (c : VoxelCursor)
    (hc : c.isSubdivided = false) : c.depth = 0 ∧ c.isLeaf = true := by
  cases c with
  | leaf v => exact ⟨rfl, rfl⟩
  | node c0 c1 c2 c3 c4 c5 c6 c7 =>
      simp [VoxelCursor.isSubdivided, VoxelCursor.isLeaf] at hc

/-- One canonicalization sweep lowers every cursor's depth bound by one. -/
theorem vertStep_depth (ns : Fin 8 → VoxelCursor) (n : Nat)
    (h : ∀ i, (ns i).depth ≤ n + 1) (i : Fin 8) :
    ((vertStep ns) i).depth ≤ n := by
  unfold vertStep
  by_cases hs : (ns i).isSubdivided = true
  · rw [if_pos hs]
    have := getChild_depth_lt (ns i) hs (oppositeDir i.val)
    have := h i
    omega
  · rw [if_neg hs]
    have := (depth_eq_zero_of_not_subdivided (ns i) (Bool.not_eq_true _ ▸ eq_false_of_ne_true hs)).1
    omega

/-- When the loop guard is false every cursor is a leaf. -/
theorem allLeaf_of_not_hasSubdivided (ns : Fin 8 → VoxelCursor)
    (h : hasSubdivided ns = false) (i : Fin 8) : (ns i).isLeaf = true := by
  unfold hasSubdivided at h
  rw [List.any_eq_false] at h
  have := h i (List.mem_finRange i)
  exact (depth_eq_zero_of_not_subdivided (ns i) (by simpa using this)).2

/-- The fuel-bounded loop succeeds and yields all leaves whenever fuel
bounds every cursor's depth. -/
theorem vertLoop_spec : ∀ (fuel : Nat) (ns : Fin 8 → VoxelCursor),
    (∀ i, (ns i).depth ≤ fuel) →
    ∃ out, vertLoop fuel ns = some out ∧ ∀ i, (out i).isLeaf = true := by
  intro fuel
  induction fuel with
  | zero =>
      intro ns h
      have hns : hasSubdivided ns = false := by
        unfold hasSubdivided
        rw [List.any_eq_false]
        intro i _
        simp only [Bool.not_eq_true]
        by_contra hs
        rw [Bool.not_eq_false] at hs
        have h0 := h i
        have := getChild_depth_lt (ns i) hs 0
        omega
      exact ⟨ns, by simp [vertLoop, hns], allLeaf_of_not_hasSubdivided ns hns⟩
  | succ f ih =>
      intro ns h
      by_cases hs : hasSubdivided ns = true
      · obtain ⟨out, hout, hleaf⟩ := ih (vertStep ns) (vertStep_depth ns f h)
        exact ⟨out, by simp [vertLoop, hs, hout], hleaf⟩
      · rw [Bool.not_eq_true] at hs
        exact ⟨ns, by simp [vertLoop, hs], allLeaf_of_not_hasSubdivided ns hs⟩

/-- Claim C8.  For every 8-tuple of cursors drawn from a chunk of depth at
most 21, `vert_proc`'s canonicalization loop terminates within 21
iterations (the fuel-21 loop returns successfully), and every cursor of the
emitted dual cell is a leaf. -/
theorem C8_vert_proc_terminates (ns : Fin 8 → VoxelCursor)
    (h : ∀ i, (ns i).depth ≤ 21) :
    ∃ out, vertLoop 21 ns = some out ∧ ∀ i, (out i).isLeaf = true :=
  vertLoop_spec 21 ns h

/-- Witness for C8 at a concrete dual cell: position 0 holds a subdivided
node of depth 1, the rest are leaves. -/
theorem C8_witness :
    (∀ i : Fin 8, ((fun i : Fin 8 =>
        if i.val = 0 then
          VoxelCursor.node (.leaf 1) (.leaf 2) (.leaf 3) (.leaf 4)
            (.leaf 5) (.leaf 6) (.leaf 7) (.leaf 8)
        else VoxelCursor.leaf 0) i).depth ≤ 21) ∧
    ∃ out, vertLoop 21 (fun i : Fin 8 =>
        if i.val = 0 then
          VoxelCursor.node (.leaf 1) (.leaf 2) (.leaf 3) (.leaf 4)
            (.leaf 5) (.leaf 6) (.leaf 7) (.leaf 8)
        else VoxelCursor.leaf 0) = some out ∧ ∀ i, (out i).isLeaf = true := by
  refine ⟨by decide, ?_⟩
  exact C8_vert_proc_terminates _ (by decide)

theorem encode_nil : encode [] = 1 := rfl

theorem encode_cons (d : Nat) (t : List Nat) : encode (d :: t) = encode t * 8 + d := rfl

/-- An encoded path of `k` octants sits between `8^k` and `2 * 8^k`: the
sentinel is the highest set bit, at position `3k`. -/
theorem encode_bounds (ds : List Nat) (h : ∀ d ∈ ds, d < 8) :
    8 ^ ds.length ≤ encode ds ∧ encode ds < 2 * 8 ^ ds.length := by
  induction ds with
  | nil => simp [encode]
  | cons d t ih =>
      have hd : d < 8 := h d (List.mem_cons_self d t)
      obtain ⟨h1, h2⟩ := ih (fun x hx => h x (List.mem_cons_of_mem d hx))
      rw [encode_cons]
      simp only [List.length_cons, pow_succ]
      omega

theorem encode_append (ds : List Nat) (d : Nat) :
    encode (ds ++ [d]) = encode ds + (d + 7) * 8 ^ ds.length := by
  induction ds with
  | nil =>
      simp only [List.nil_append, encode_cons, encode_nil, List.length_nil, pow_zero]
      omega
  | cons e t ih =>
      simp only [List.cons_append, encode_cons, ih, List.length_cons, pow_succ]
      ring

theorem msbPosAux_eq_log2 : ∀ (fuel n : Nat), n ≤ fuel → msbPosAux fuel n = Nat.log2 n := by
  intro fuel
  induction fuel with
  | zero =>
      intro n hn
      have : n = 0 := by omega
      subst this
      simp [msbPosAux, Nat.log2_zero]
  | succ f ih =>
      intro n hn
      simp only [msbPosAux]
      by_cases h2 : n ≥ 2
      · rw [if_pos h2, ih (n / 2) (by omega)]
        conv_rhs => rw [Nat.log2]
        rw [if_pos h2]
      · rw [if_neg h2, Nat.log2, if_neg h2]

theorem msbPos_eq_of_bounds (m x : Nat) (h1 : 2 ^ m ≤ x) (h2 : x < 2 ^ (m + 1)) :
    msbPos x = m := by
  have hx : x ≠ 0 := by
    have := Nat.pos_pow_of_pos m (show 0 < 2 by omega)
    omega
  rw [msbPos, msbPosAux_eq_log2 x x le_rfl]
  have ha := (Nat.le_log2 hx).2 h1
  have hb := (Nat.log2_lt hx).2 h2
  omega

/-- The encoded path is never full while shorter than 21 octants. -/
theorem isFull_encode_false (ds : List Nat) (h : ∀ d ∈ ds, d < 8)
    (hl : ds.length ≤ 20) : IndexPath.isFull (encode ds) = false := by
  obtain ⟨_, h2⟩ := encode_bounds ds h
  have hle : (8 : Nat) ^ ds.length ≤ 8 ^ 20 := Nat.pow_le_pow_right (by omega) hl
  have hlt : encode ds < 2 ^ 63 := by
    have : (2 : Nat) * 8 ^ 20 ≤ 2 ^ 63 := by norm_num
    omega
  unfold IndexPath.isFull
  have : encode ds >>> 63 = 0 := by
    rw [Nat.shiftRight_eq_div_pow]
    exact Nat.div_eq_of_lt hlt
  rw [this]
  rfl

theorem push_encode (ds : List Nat) (h : ∀ d ∈ ds, d < 8) (hl : ds.length ≤ 20)
    (d : Nat) (hd : d < 8) :
    IndexPath.push (encode ds) d = some (encode (d :: ds)) := by
  obtain ⟨h1, h2⟩ := encode_bounds ds h
  have hle : (8 : Nat) ^ ds.length ≤ 8 ^ 20 := Nat.pow_le_pow_right (by omega) hl
  unfold IndexPath.push
  rw [isFull_encode_false ds h hl]
  simp only [Bool.false_eq_true, if_false]
  have hsh : encode ds <<< 3 = 8 * encode ds := by
    rw [Nat.shiftLeft_eq]
    omega
  have hmod : (8 * encode ds) % U64 = 8 * encode ds := by
    apply Nat.mod_eq_of_lt
    have : (2 : Nat) * 8 ^ 20 ≤ 2 ^ 61 := by norm_num
    have : (8 : Nat) * 2 ^ 61 ≤ U64 := by norm_num [U64]
    omega
  rw [hsh, hmod]
  have hor : 8 * encode ds ||| d = 8 * encode ds + d := by
    have := Nat.mul_add_lt_is_or (b := d) (i := 3) (by omega) (encode ds)
    simpa using this.symm
  rw [hor, encode_cons]
  congr 1
  ring

theorem pushList_encode : ∀ (ds acc : List Nat), (∀ d ∈ ds, d < 8) →
    (∀ d ∈ acc, d < 8) → ds.length + acc.length ≤ 21 →
    IndexPath.pushList (encode acc) ds = some (encode (ds.reverse ++ acc)) := by
  intro ds
  induction ds with
  | nil =>
      intro acc _ _ _
      rfl
  | cons d t ih =>
      intro acc h hacc hlen
      have hd : d < 8 := h d (List.mem_cons_self d t)
      have ht : ∀ x ∈ t, x < 8 := fun x hx => h x (List.mem_cons_of_mem d hx)
      simp only [IndexPath.pushList, List.length_cons] at hlen ⊢
      rw [push_encode acc hacc (by omega) d hd]
      simp only [Option.some_bind]
      have hacc2 : ∀ x ∈ d :: acc, x < 8 := by
        intro x hx
        rcases List.mem_cons.1 hx with h5 | h5
        · omega
        · exact hacc x h5
      rw [ih (d :: acc) ht hacc2 (by simp; omega)]
      congr 1
      simp

theorem toListAux_encode : ∀ (ds : List Nat) (fuel : Nat), (∀ d ∈ ds, d < 8) →
    ds.length ≤ fuel → IndexPath.toListAux fuel (encode ds) = ds := by
  intro ds
  induction ds with
  | nil =>
      intro fuel _ _
      cases fuel with
      | zero => rfl
      | succ f => rfl
  | cons d t ih =>
      intro fuel h hlen
      have hd : d < 8 := h d (List.mem_cons_self d t)
      have ht : ∀ x ∈ t, x < 8 := fun x hx => h x (List.mem_cons_of_mem d hx)
      obtain ⟨h1, _⟩ := encode_bounds (d :: t) h
      cases fuel with
      | zero => simp at hlen
      | succ f =>
          simp only [IndexPath.toListAux]
          rw [if_neg (by
            have : (8 : Nat) ^ (d :: t).length ≥ 8 := by
              calc (8 : Nat) ^ (d :: t).length ≥ 8 ^ 1 :=
                    Nat.pow_le_pow_right (by omega) (by simp)
                _ = 8 := by norm_num
            omega)]
          have hpeek : IndexPath.peekRaw (encode (d :: t)) = d := by
            unfold IndexPath.peekRaw
            rw [encode_cons, Nat.mul_comm, Nat.mul_add_mod]
            exact Nat.mod_eq_of_lt hd
          have hpop : IndexPath.popRaw (encode (d :: t)) = encode t := by
            unfold IndexPath.popRaw
            rw [encode_cons, Nat.shiftRight_eq_div_pow]
            have : encode t * 8 + d = 8 * encode t + d := by ring
            rw [this]
            rw [show (2 : Nat) ^ 3 = 8 by norm_num]
            rw [Nat.mul_add_div (by omega)]
            simp [Nat.div_eq_of_lt hd]
          rw [hpeek, hpop, ih f ht (by simpa using hlen)]

theorem toList_encode (ds : List Nat) (h : ∀ d ∈ ds, d < 8) :
    IndexPath.toList (encode ds) = ds := by
  apply toListAux_encode ds (encode ds) h
  obtain ⟨h1, _⟩ := encode_bounds ds h
  have h2 : ds.length < 2 ^ ds.length := Nat.lt_two_pow ds.length
  have h3 : (2 : Nat) ^ ds.length ≤ 8 ^ ds.length := Nat.pow_le_pow_left (by omega) _
  omega

/-- Clearing the three mask bits at the sentinel position removes exactly
the sentinel from an encoded path value. -/
theorem and_clear_sentinel (e m : Nat) (_h1 : 2 ^ m ≤ e) (h2 : e < 2 ^ (m + 1))
    (hm : m + 3 ≤ 64) :
    e &&& ((U64 - 1) ^^^ ((7 <<< m) % U64)) = e % 2 ^ m := by
  have h7 : (7 <<< m) % U64 = 7 * 2 ^ m := by
    rw [Nat.shiftLeft_eq, Nat.mod_eq_of_lt]
    calc 7 * 2 ^ m < 2 ^ 3 * 2 ^ m := by
          have := Nat.pos_pow_of_pos m (show 0 < 2 by omega)
          omega
      _ = 2 ^ (m + 3) := by rw [← pow_add]; ring_nf
      _ ≤ 2 ^ 64 := Nat.pow_le_pow_right (by omega) hm
  rw [h7]
  apply Nat.eq_of_testBit_eq
  intro i
  rw [Nat.testBit_and, Nat.testBit_xor, Nat.testBit_mod_two_pow]
  have hU : U64 - 1 = 2 ^ 64 - 1 := by norm_num [U64]
  rw [hU, Nat.testBit_two_pow_sub_one]
  rw [Nat.mul_comm 7, show (7 : Nat) = 2 ^ 3 - 1 from rfl, Nat.testBit_mul_pow_two]
  by_cases hi1 : i < m
  · have c1 : decide (i < 64) = true := by simp; omega
    have c2 : decide (i ≥ m) = false := by simp; omega
    have c3 : decide (i < m) = true := by simp; omega
    rw [c1, c2, c3]
    simp
  · by_cases hi2 : i < m + 3
    · have c1 : decide (i < 64) = true := by simp; omega
      have c2 : decide (i ≥ m) = true := by simp; omega
      have c3 : decide (i < m) = false := by simp; omega
      have c4 : Nat.testBit (2 ^ 3 - 1) (i - m) = true := by
        rw [Nat.testBit_two_pow_sub_one]
        simp
        omega
      rw [c1, c2, c3, c4]
      simp
    · have c3 : decide (i < m) = false := by simp; omega
      have c4 : Nat.testBit (2 ^ 3 - 1) (i - m) = false := by
        rw [Nat.testBit_two_pow_sub_one]
        simp
        omega
      have c5 : Nat.testBit e i = false := by
        apply Nat.testBit_lt_two_pow
        calc e < 2 ^ (m + 1) := h2
          _ ≤ 2 ^ i := Nat.pow_le_pow_right (by omega) (by omega)
      by_cases hi3 : i < 64
      · have c1 : decide (i < 64) = true := by simp; omega
        have c2 : decide (i ≥ m) = true := by simp; omega
        rw [c1, c2, c3, c4, c5]
        simp
      · have c1 : decide (i < 64) = false := by simp; omega
        rw [c1, c3, c4, c5]
        simp

theorem put_encode (ds : List Nat) (h : ∀ d ∈ ds, d < 8) (hl : ds.length ≤ 20)
    (d : Nat) (hd : d < 8) :
    IndexPath.put (encode ds) d = some (encode (ds ++ [d])) := by
  obtain ⟨h1, h2⟩ := encode_bounds ds h
  have hpow : (8 : Nat) ^ ds.length = 2 ^ (3 * ds.length) := by
    rw [show (8 : Nat) = 2 ^ 3 by norm_num, ← pow_mul]
  have hm : msbPos (encode ds) = 3 * ds.length := by
    apply msbPos_eq_of_bounds
    · omega
    · rw [pow_succ]
      omega
  have hml : 3 * ds.length ≤ 60 := by omega
  unfold IndexPath.put
  rw [isFull_encode_false ds h hl]
  simp only [Bool.false_eq_true, if_false, hm]
  rw [and_clear_sentinel (encode ds) (3 * ds.length) (by omega) (by rw [pow_succ]; omega)
    (by omega)]
  have hd8 : d ||| 8 = d + 8 := by
    have h8 := Nat.mul_add_lt_is_or (b := d) (i := 3) (by omega) 1
    rw [Nat.mul_one, show ((2 : Nat) ^ 3) = 8 by norm_num] at h8
    rw [Nat.lor_comm, ← h8]
    omega
  rw [hd8]
  have hsh : ((d + 8) <<< (3 * ds.length)) % U64 = (d + 8) * 2 ^ (3 * ds.length) := by
    have hb : (2 : Nat) ^ (3 * ds.length) ≤ 2 ^ 60 := Nat.pow_le_pow_right (by omega) hml
    have hdp : (d + 8) * 2 ^ (3 * ds.length) ≤ 15 * 2 ^ (3 * ds.length) :=
      Nat.mul_le_mul_right _ (by omega)
    have h15 : (15 : Nat) * 2 ^ (3 * ds.length) ≤ 15 * 2 ^ 60 := Nat.mul_le_mul_left _ hb
    have hU : (15 : Nat) * 2 ^ 60 < U64 := by norm_num [U64]
    rw [Nat.shiftLeft_eq]
    exact Nat.mod_eq_of_lt (by omega)
  rw [hsh]
  have hmod : encode ds % 2 ^ (3 * ds.length) = encode ds - 2 ^ (3 * ds.length) := by
    rw [Nat.mod_eq_sub_mod (by omega), Nat.mod_eq_of_lt (by omega)]
  rw [hmod]
  have hor : (d + 8) * 2 ^ (3 * ds.length) ||| (encode ds - 2 ^ (3 * ds.length)) =
      (d + 8) * 2 ^ (3 * ds.length) + (encode ds - 2 ^ (3 * ds.length)) := by
    have hlt : encode ds - 2 ^ (3 * ds.length) < 2 ^ (3 * ds.length) := by
      omega
    have h9 := Nat.mul_add_lt_is_or (b := encode ds - 2 ^ (3 * ds.length))
      (i := 3 * ds.length) hlt (d + 8)
    rw [Nat.mul_comm ((2 : Nat) ^ (3 * ds.length))] at h9
    exact h9.symm
  rw [Nat.lor_comm, hor, encode_append, hpow]
  congr 1
  have ha : (d + 8) * 2 ^ (3 * ds.length) =
      d * 2 ^ (3 * ds.length) + 8 * 2 ^ (3 * ds.length) := by ring
  have hb : (d + 7) * 2 ^ (3 * ds.length) =
      d * 2 ^ (3 * ds.length) + 7 * 2 ^ (3 * ds.length) := by ring
  omega

theorem putList_encode : ∀ (ds acc : List Nat), (∀ d ∈ ds, d < 8) →
    (∀ d ∈ acc, d < 8) → acc.length + ds.length ≤ 21 →
    IndexPath.putList (encode acc) ds = some (encode (acc ++ ds)) := by
  intro ds
  induction ds with
  | nil =>
      intro acc _ _ _
      rw [List.append_nil]
      rfl
  | cons d t ih =>
      intro acc h hacc hlen
      have hd : d < 8 := h d (List.mem_cons_self d t)
      have ht : ∀ x ∈ t, x < 8 := fun x hx => h x (List.mem_cons_of_mem d hx)
      simp only [IndexPath.putList, List.length_cons] at hlen ⊢
      rw [put_encode acc hacc (by omega) d hd]
      simp only [Option.some_bind]
      have hacc2 : ∀ x ∈ acc ++ [d], x < 8 := by
        intro x hx
        rcases List.mem_append.1 hx with h5 | h5
        · exact hacc x h5
        · simp at h5
          omega
      rw [ih (acc ++ [d]) ht hacc2 (by simp; omega)]
      congr 1
      simp

/-- Claim C5.  For every sequence of at most 21 octants, the path built by
`push d1; ...; push dk` iterates as `dk, ..., d1`, and the path built by
`put d1; ...; put dk` iterates as `d1, ..., dk`; all the `push`/`put`
assertions pass along the way. -/
theorem C5_roundtrip (ds : List Nat) (hlen : ds.length ≤ 21) (hds : ∀ d ∈ ds, d < 8) :
    (∃ p, IndexPath.pushList IndexPath.empty ds = some p ∧
      IndexPath.toList p = ds.reverse) ∧
    (∃ q, IndexPath.putList IndexPath.empty ds = some q ∧
      IndexPath.toList q = ds) := by
  have hrev : ∀ d ∈ ds.reverse, d < 8 := fun x hx => hds x (List.mem_reverse.1 hx)
  constructor
  · refine ⟨encode ds.reverse, ?_, toList_encode ds.reverse hrev⟩
    have := pushList_encode ds [] hds (by simp) (by simpa using hlen)
    simpa [encode] using this
  · refine ⟨encode ds, ?_, toList_encode ds hds⟩
    have := putList_encode ds [] hds (by simp) (by simpa using hlen)
    simpa [encode] using this

/-- Witness for C5 at the octant sequence `[1, 2, 3]`. -/
theorem C5_witness :
    ([1, 2, 3] : List Nat).length ≤ 21 ∧ (∀ d ∈ ([1, 2, 3] : List Nat), d < 8) ∧
    ((∃ p, IndexPath.pushList IndexPath.empty [1, 2, 3] = some p ∧
        IndexPath.toList p = [3, 2, 1]) ∧
     (∃ q, IndexPath.putList IndexPath.empty [1, 2, 3] = some q ∧
        IndexPath.toList q = [1, 2, 3])) := by
  refine ⟨by decide, by decide, ?_⟩
  have h := C5_roundtrip [1, 2, 3] (by decide) (by decide)
  simpa using h

theorem getD_set_self {α : Type} (l : List α) (i : Nat) (x d : α) (h : i < l.length) :
    (l.set i x).getD i d = x := by
  simp [List.getD_eq_getElem?_getD, List.getElem?_set_self h]

theorem getD_set_ne {α : Type} (l : List α) (i j : Nat) (x d : α) (h : i ≠ j) :
    (l.set i x).getD j d = l.getD j d := by
  simp [List.getD_eq_getElem?_getD, List.getElem?_set_ne h]

theorem getD_of_length_le {α : Type} (l : List α) (i : Nat) (d : α)
    (h : l.length ≤ i) : l.getD i d = d := by
  simp [List.getD_eq_getElem?_getD, List.getElem?_eq_none h]

theorem and_one_shiftLeft_eq_zero {w k : Nat} (h : w.testBit k = false) :
    w &&& ((1 : Nat) <<< k) = 0 := by
  apply Nat.eq_of_testBit_eq
  intro j
  rw [Nat.testBit_and, Nat.zero_testBit, Nat.shiftLeft_eq, Nat.one_mul]
  by_cases hj : j = k
  · subst hj
    rw [h]
    simp
  · rw [Nat.testBit_two_pow_of_ne (fun hh => hj hh.symm)]
    simp

/-- After marking slot `i` used, `available_at i` is false (for any `i`:
out-of-range word indices read the zero default). -/
theorem availableAt_setAvailableAt_false (s : ArenaSegment) (i : Nat) :
    (s.setAvailableAt i false).availableAt i = false := by
  have hk : (i &&& 63) < 64 := by
    have : (i &&& 63) ≤ 63 := Nat.and_le_right
    omega
  unfold ArenaSegment.setAvailableAt ArenaSegment.availableAt
  simp only [Bool.false_eq_true, if_false]
  by_cases h : i >>> 6 < s.freemask.length
  · rw [getD_set_self _ _ _ _ h]
    have hbit : ((s.freemask.getD (i >>> 6) 0) &&&
        ((U64 - 1) ^^^ ((1 : Nat) <<< (i &&& 63)))).testBit (i &&& 63) = false := by
      rw [Nat.testBit_and, Nat.testBit_xor]
      have h1 : (U64 - 1).testBit (i &&& 63) = true := by
        rw [show U64 - 1 = 2 ^ 64 - 1 by norm_num [U64], Nat.testBit_two_pow_sub_one]
        simp
        omega
      have h2 : ((1 : Nat) <<< (i &&& 63)).testBit (i &&& 63) = true := by
        rw [Nat.shiftLeft_eq, Nat.one_mul]
        exact Nat.testBit_two_pow_self
      rw [h1, h2]
      simp
    rw [and_one_shiftLeft_eq_zero hbit]
    rfl
  · have hlen : (s.freemask.set (i >>> 6)
        ((s.freemask.getD (i >>> 6) 0) &&&
          ((U64 - 1) ^^^ ((1 : Nat) <<< (i &&& 63))))).length ≤ i >>> 6 := by
      rw [List.length_set]
      omega
    rw [getD_of_length_le _ _ _ hlen]
    simp

/-- `availableAt` ignores the `nextAvailable` field. -/
theorem availableAt_with_nextAvailable (s : ArenaSegment) (o : Option Nat) (i : Nat) :
    ArenaSegment.availableAt { s with nextAvailable := o } i = s.availableAt i := rfl

/-- `ArenaSegment::alloc` on a segment with an available hint returns that
slot and leaves it marked used. -/
theorem segAlloc_of_nextAvailable (s : ArenaSegment) (na : Nat)
    (h : s.nextAvailable = some na) :
    ∃ s', s.alloc = some (na, s') ∧ s'.availableAt na = false := by
  unfold ArenaSegment.alloc
  rw [h]
  refine ⟨_, rfl, ?_⟩
  by_cases hc : (decide (na < 255) && (s.setAvailableAt na false).availableAt (na + 1)) = true
  · rw [if_pos hc]
    rw [availableAt_with_nextAvailable]
    exact availableAt_setAvailableAt_false s na
  · rw [if_neg hc]
    rw [availableAt_with_nextAvailable]
    exact availableAt_setAvailableAt_false s na

/-- `ArenaSegment::free` on a used slot succeeds and stores the slot in the
`next_available` hint. -/
theorem segFree_spec (s : ArenaSegment) (i : Nat) (h : s.availableAt i = false) :
    s.free i = some { s.setAvailableAt i true with nextAvailable := some i } := by
  unfold ArenaSegment.free
  rw [h]
  rfl

theorem findRevNonFullGo_spec (l : List ArenaSegment) :
    ∀ (i j : Nat), Arena.findRevNonFullGo l i = some j →
      j < i ∧ (l.getD j (ArenaSegment.new 1)).isFull = false ∧
      ∀ m, j < m → m < i → (l.getD m (ArenaSegment.new 1)).isFull = true := by
  intro i
  induction i with
  | zero => intro j h; simp [Arena.findRevNonFullGo] at h
  | succ i ih =>
      intro j h
      simp only [Arena.findRevNonFullGo] at h
      by_cases hf : (l.getD i (ArenaSegment.new 1)).isFull = true
      · rw [if_pos hf] at h
        obtain ⟨h1, h2, h3⟩ := ih j h
        refine ⟨by omega, h2, fun m hm1 hm2 => ?_⟩
        by_cases hmi : m = i
        · subst hmi; exact hf
        · exact h3 m hm1 (by omega)
      · rw [if_neg hf] at h
        injection h with h
        subst h
        refine ⟨by omega, by simpa using hf, fun m hm1 hm2 => by omega⟩

theorem findRevNonFullGo_eq_some (l : List ArenaSegment) :
    ∀ (i j : Nat), j < i → (l.getD j (ArenaSegment.new 1)).isFull = false →
      (∀ m, j < m → m < i → (l.getD m (ArenaSegment.new 1)).isFull = true) →
      Arena.findRevNonFullGo l i = some j := by
  intro i
  induction i with
  | zero => intro j h _ _; omega
  | succ i ih =>
      intro j hj hnf hfull
      simp only [Arena.findRevNonFullGo]
      by_cases hji : j = i
      · subst hji
        rw [if_neg (by rw [hnf]; simp)]
      · have hfi : (l.getD i (ArenaSegment.new 1)).isFull = true :=
          hfull i (by omega) (by omega)
        rw [if_pos hfi]
        exact ih j (by omega) hnf (fun m h1 h2 => hfull m h1 (by omega))

/-- Claim C7.  For every arena state (with its eight fixed segment vectors)
and block size `k`, if `alloc(k)` succeeds returning block `b1`, then
freeing `b1` succeeds and the next `alloc(k)` returns the same
`(segment, slot)` pair: `free` stores the freed slot in the segment's
`next_available` hint and leaves the segment the last non-full one. -/
theorem C7_arena_recycle (a : Arena) (k : Nat) (b1 : ArenaBlockIndice) (a1 : Arena)
    (hseg : a.segments.length = 8)
    (h1 : a.alloc k = some (b1, a1)) :
    b1.blockSize = k ∧
    ∃ a2, a1.free b1 = some a2 ∧
      ∃ b2 a3, a2.alloc k = some (b2, a3) ∧
        b2.segment = b1.segment ∧ b2.indice = b1.indice := by
  by_cases hk : 0 < k ∧ k ≤ 8
  swap
  · unfold Arena.alloc at h1
    rw [if_pos hk] at h1
    simp at h1
  have hnn : ¬ ¬ (0 < k ∧ k ≤ 8) := not_not_intro hk
  have hk1 : k - 1 < a.segments.length := by omega
  unfold Arena.alloc at h1
  rw [if_neg hnn] at h1
  split at h1
  next i heq =>
    -- an existing non-full segment i was picked
    obtain ⟨hilen, hnf, hfull⟩ := findRevNonFullGo_spec _ _ _ heq
    rcases hna : ((a.segments.getD (k - 1) []).getD i (ArenaSegment.new 1)).nextAvailable
      with _ | na
    · exfalso
      rw [ArenaSegment.isFull, hna] at hnf
      simp at hnf
    obtain ⟨seg, halloc, havail⟩ :=
      segAlloc_of_nextAvailable ((a.segments.getD (k - 1) []).getD i (ArenaSegment.new 1))
        na hna
    rw [halloc] at h1
    simp only [Option.some.injEq, Prod.mk.injEq] at h1
    obtain ⟨hb, ha⟩ := h1
    subst hb
    subst ha
    refine ⟨rfl, ?_⟩
    -- the freed slot
    have hgetD : ((a.segments.set (k - 1)
        ((a.segments.getD (k - 1) []).set i seg)).getD (k - 1) []) =
        (a.segments.getD (k - 1) []).set i seg := getD_set_self _ _ _ _ hk1
    have hget2 : ((a.segments.getD (k - 1) []).set i seg).get? i = some seg := by
      rw [List.get?_eq_getElem?]
      exact List.getElem?_set_self hilen
    have hfree2 := segFree_spec seg na havail
    have hfree : Arena.free ⟨a.segments.set (k - 1)
          ((a.segments.getD (k - 1) []).set i seg)⟩ ⟨i, na, k⟩ =
        some ⟨(a.segments.set (k - 1) ((a.segments.getD (k - 1) []).set i seg)).set (k - 1)
          (((a.segments.getD (k - 1) []).set i seg).set i
            { seg.setAvailableAt na true with nextAvailable := some na })⟩ := by
      unfold Arena.free
      rw [if_pos (show (0 : Nat) < k by omega)]
      simp only [hgetD, hget2, hfree2]
    refine ⟨_, hfree, ?_⟩
    -- the second allocation
    set seg2 : ArenaSegment := { seg.setAvailableAt na true with nextAvailable := some na }
      with hseg2
    have hlen2 : ((a.segments.set (k - 1) ((a.segments.getD (k - 1) []).set i seg)).set
        (k - 1) (((a.segments.getD (k - 1) []).set i seg).set i seg2)).length = 8 := by
      simp [hseg]
    have hgetD2 : ((a.segments.set (k - 1) ((a.segments.getD (k - 1) []).set i seg)).set
        (k - 1) (((a.segments.getD (k - 1) []).set i seg).set i seg2)).getD (k - 1) [] =
        (a.segments.getD (k - 1) []).set i seg2 := by
      rw [getD_set_self _ _ _ _ (by rw [List.length_set]; exact hk1)]
      rw [List.set_set]
    have hfind2 : Arena.findRevNonFull ((a.segments.getD (k - 1) []).set i seg2) =
        some i := by
      unfold Arena.findRevNonFull
      rw [List.length_set]
      apply findRevNonFullGo_eq_some
      · exact hilen
      · rw [getD_set_self _ _ _ _ hilen]
        rfl
      · intro m hm1 hm2
        rw [getD_set_ne _ _ _ _ _ (by omega)]
        exact hfull m hm1 hm2
    obtain ⟨seg3, halloc3, _⟩ := segAlloc_of_nextAvailable
      (((a.segments.getD (k - 1) []).set i seg2).getD i (ArenaSegment.new 1))
      na (by rw [getD_set_self _ _ _ _ hilen])
    have halloc4 : Arena.alloc ⟨(a.segments.set (k - 1)
          ((a.segments.getD (k - 1) []).set i seg)).set (k - 1)
          (((a.segments.getD (k - 1) []).set i seg).set i seg2)⟩ k =
        some (⟨i, na, k⟩,
          ⟨((a.segments.set (k - 1) ((a.segments.getD (k - 1) []).set i seg)).set (k - 1)
              (((a.segments.getD (k - 1) []).set i seg).set i seg2)).set (k - 1)
            (((a.segments.getD (k - 1) []).set i seg2).set i seg3)⟩) := by
      unfold Arena.alloc
      rw [if_neg hnn]
      simp only [hgetD2, hfind2, halloc3]
    exact ⟨⟨i, na, k⟩, _, halloc4, rfl, rfl⟩
  next heq =>
    -- all segments full (or none): a fresh segment is pushed
    by_cases hlen255 : (a.segments.getD (k - 1) []).length ≤ 255
    swap
    · rw [if_neg hlen255] at h1
      simp at h1
    · rw [if_pos hlen255] at h1
      obtain ⟨seg, halloc, havail⟩ :=
        segAlloc_of_nextAvailable (ArenaSegment.new k) 0 rfl
      rw [halloc] at h1
      simp only [Option.some.injEq, Prod.mk.injEq] at h1
      obtain ⟨hb, ha⟩ := h1
      subst hb
      subst ha
      refine ⟨rfl, ?_⟩
      have hgetD : ((a.segments.set (k - 1)
          ((a.segments.getD (k - 1) []) ++ [seg])).getD (k - 1) []) =
          (a.segments.getD (k - 1) []) ++ [seg] := getD_set_self _ _ _ _ hk1
      have hget2 : ((a.segments.getD (k - 1) []) ++ [seg]).get?
          (a.segments.getD (k - 1) []).length = some seg :=
        by rw [List.get?_eq_getElem?]; exact List.getElem?_concat_length _ _
      have hfree2 := segFree_spec seg 0 havail
      have hfree : Arena.free ⟨a.segments.set (k - 1)
            ((a.segments.getD (k - 1) []) ++ [seg])⟩
            ⟨(a.segments.getD (k - 1) []).length, 0, k⟩ =
          some ⟨(a.segments.set (k - 1) ((a.segments.getD (k - 1) []) ++ [seg])).set (k - 1)
            (((a.segments.getD (k - 1) []) ++ [seg]).set
              (a.segments.getD (k - 1) []).length
              { seg.setAvailableAt 0 true with nextAvailable := some 0 })⟩ := by
        unfold Arena.free
        rw [if_pos (show (0 : Nat) < k by omega)]
        simp only [hgetD, hget2, hfree2]
      refine ⟨_, hfree, ?_⟩
      set seg2 : ArenaSegment := { seg.setAvailableAt 0 true with nextAvailable := some 0 }
        with hseg2
      have happ : ((a.segments.getD (k - 1) []) ++ [seg]).set
          (a.segments.getD (k - 1) []).length seg2 =
          (a.segments.getD (k - 1) []) ++ [seg2] := by
        rw [List.set_append_right _ _ (Nat.le_refl _)]
        simp
      have hgetD2 : ((a.segments.set (k - 1) ((a.segments.getD (k - 1) []) ++ [seg])).set
          (k - 1) (((a.segments.getD (k - 1) []) ++ [seg]).set
            (a.segments.getD (k - 1) []).length seg2)).getD (k - 1) [] =
          (a.segments.getD (k - 1) []) ++ [seg2] := by
        rw [getD_set_self _ _ _ _ (by rw [List.length_set]; exact hk1)]
        exact happ
      have hfind2 : Arena.findRevNonFull ((a.segments.getD (k - 1) []) ++ [seg2]) =
          some (a.segments.getD (k - 1) []).length := by
        unfold Arena.findRevNonFull
        rw [List.length_append, List.length_singleton]
        apply findRevNonFullGo_eq_some
        · omega
        · rw [List.getD_eq_getElem?_getD, List.getElem?_append_right (Nat.le_refl _)]
          simp [ArenaSegment.isFull]
        · intro m hm1 hm2
          omega
      obtain ⟨seg3, halloc3, _⟩ := segAlloc_of_nextAvailable
        (((a.segments.getD (k - 1) []) ++ [seg2]).getD
          (a.segments.getD (k - 1) []).length (ArenaSegment.new 1))
        0 (by
          rw [List.getD_eq_getElem?_getD, List.getElem?_append_right (Nat.le_refl _)]
          simp)
      have halloc4 : Arena.alloc ⟨(a.segments.set (k - 1)
            ((a.segments.getD (k - 1) []) ++ [seg])).set (k - 1)
            (((a.segments.getD (k - 1) []) ++ [seg]).set
              (a.segments.getD (k - 1) []).length seg2)⟩ k =
          some (⟨(a.segments.getD (k - 1) []).length, 0, k⟩,
            ⟨((a.segments.set (k - 1) ((a.segments.getD (k - 1) []) ++ [seg])).set (k - 1)
                (((a.segments.getD (k - 1) []) ++ [seg]).set
                  (a.segments.getD (k - 1) []).length seg2)).set (k - 1)
              (((a.segments.getD (k - 1) []) ++ [seg2]).set
                (a.segments.getD (k - 1) []).length seg3)⟩) := by
        unfold Arena.alloc
        rw [if_neg hnn]
        simp only [hgetD2, hfind2, halloc3]
      exact ⟨⟨(a.segments.getD (k - 1) []).length, 0, k⟩, _, halloc4, rfl, rfl⟩

/-- Witness for C7: a fresh arena, block size 1 (the second alloc reuses
segment 0, slot 0). -/
theorem C7_witness :
    Arena.new.segments.length = 8 ∧
    ∃ b1 a1, Arena.new.alloc 1 = some (b1, a1) ∧
      b1.blockSize = 1 ∧
      ∃ a2, a1.free b1 = some a2 ∧
        ∃ b2 a3, a2.alloc 1 = some (b2, a3) ∧
          b2.segment = b1.segment ∧ b2.indice = b1.indice := by
  refine ⟨by decide, ?_⟩
  rcases halloc : Arena.new.alloc 1 with _ | ⟨b, a1⟩
  · exact absurd halloc (by decide)
  · exact ⟨b, a1, rfl, C7_arena_recycle Arena.new 1 b a1 (by decide) halloc⟩

end Elogog
